import Mathlib

/-
Verification of the Weibo trending-topics synchronization pipeline.

Shallow embedding of the repository code:
  spider/fetch_hot_topics.py   (iso_time, upsert_topic)
  spider/daily_heat.py         (_upsert_topic, summarize_archive, update_daily_heat)
  spider/monitor_remote_hot_topics.py
                               (collect_pending_hours, should_trigger_local,
                                _maybe_fetch_local)
  spider/crawler_core.py       (ensure_hashtag_format, ensure_contains_topic,
                                calculate_score, normalize_mblog, crawl_topic)
  spider/update_posts.py       (update_topic, refresh_posts_for_date,
                                _convert_detail_posts)

Conventions of the embedding:
  - Python dicts holding records become structures whose fields are the keys the
    code reads or writes; keys never touched by any claim (media payloads,
    user-interface metadata, diagnostic counters) are omitted.
  - Machine floats in score arithmetic are modelled as rationals; the literal
    0.6 denotes the exact rational 3/5, and so on.
  - Filesystem and network effects are parameters: a snapshot-file existence
    oracle, a page source, a local-crawler result.  Pure helper functions of
    the repository whose internals no claim inspects (slugify_title which ends
    in an md5 digest, parse_created_at and clean_html which wrap datetime and
    BeautifulSoup, the Python builtin hash) are likewise passed as function
    parameters, since every claim is parametric in their output.
-/

namespace Weibo

/-! Basic time formatting: CHINA_TZ is UTC+8.  iso_time builds
    datetime.fromisoformat(date + T + hour).replace(tzinfo=CHINA_TZ)
    .isoformat(timespec=seconds), which for a valid date string and an hour
    below 24 is exactly the string date ++ "T" ++ hh ++ ":00:00+08:00". -/

/-- Python str.strip(): drop leading and trailing whitespace. -/
def pyStrip (s : String) : String :=
  ⟨((s.data.dropWhile Char.isWhitespace).reverse.dropWhile
      Char.isWhitespace).reverse⟩

/-- Python str.lower(). -/
def pyLower (s : String) : String :=
  ⟨s.data.map Char.toLower⟩

/-- Lexicographic code-point comparison of character lists, the order Python
uses on str. -/
def charsLt : List Char → List Char → Bool
  | [], [] => false
  | [], _ :: _ => true
  | _ :: _, [] => false
  | a :: as, b :: bs =>
    if a < b then true else if b < a then false else charsLt as bs

def strLt (a b : String) : Bool := charsLt a.data b.data

def strLe (a b : String) : Bool := !(strLt b a)

def twoDigit (n : Nat) : String :=
  if n < 10 then "0" ++ toString n else toString n

def iso_time (date : String) (hour : Nat) : String :=
  date ++ "T" ++ twoDigit hour ++ ":00:00+08:00"

/-! The snapshot entry for one topic in one hourly snapshot, as delivered by a
    snapshot source.  ads and hot are the two payload fields the pipeline
    reads (summarize_archive); title is the merge key. -/

structure TopicEntry where
  title : String
  hot : Option Int := none
  ads : Bool := false
  category : Option String := none
  description : Option String := none
  url : Option String := none
deriving DecidableEq, Repr

/-! One post item as produced by normalize_mblog or _convert_detail_posts.
    Media fields (pics, video) are omitted: no claim mentions them. -/

structure Item where
  id : String
  bid : String := ""
  url : Option String := none
  created_at : Option String := none
  user_id : Option Int := none
  user_name : Option String := none
  verified : Option Bool := none
  region : Option String := none
  source : Option String := none
  text : String := ""
  text_raw : String := ""
  reposts : Option Int := none
  comments : Option Int := none
  likes : Option Int := none
  score : ℚ := 0
deriving DecidableEq, Repr

/-! The result dict built by crawl_topic (and by the fallbacks in
    update_topic).  The diagnostic fields empty_reason and empty_debug are
    omitted: they are write-only diagnostics no claim mentions. -/

structure CrawlResult where
  topic : String
  fetched_at : Option String := none
  total : Nat := 0
  top_n : Nat := 30
  items : List Item := []
deriving DecidableEq, Repr

/-! The per-day archive record for one topic title.  entry holds the raw
    snapshot payload keys (record.update(topic) overwrites exactly those). -/

structure TopicRecord where
  entry : TopicEntry
  appeared_hours : List String := []
  first_seen : String := ""
  last_seen : String := ""
  last_post_refresh : Option String := none
  post_output : Option String := none
  known_ids : List String := []
  needs_refresh : Bool := false
  slug : String := ""
  latest_posts : Option CrawlResult := none
  last_post_total : Option Nat := none
deriving DecidableEq, Repr

/-! ArchiveMerger: upsert_topic of spider/fetch_hot_topics.py (identical,
    line for line, to _upsert_topic of spider/daily_heat.py apart from the
    returned value).  The archive dict is modelled as a lookup function;
    slugf is crawler_core.slugify_title, a pure function of the title.
    The setdefault calls of the existing-record branch are identities here
    because the record structure is total in those fields, exactly as every
    record ever placed in an archive by this code is. -/

/-- The fresh-record branch of upsert_topic: record = dict(topic) plus the
bookkeeping fields. -/
def freshRecord (slugf : String → String) (topic : TopicEntry)
    (date : String) (hour : Nat) : TopicRecord :=
  { entry := topic
    appeared_hours := [twoDigit hour]
    first_seen := iso_time date hour
    last_seen := iso_time date hour
    last_post_refresh := none
    post_output := none
    known_ids := []
    needs_refresh := true
    slug := slugf (pyStrip topic.title) }

/-- The existing-record branch of upsert_topic: record.update(topic),
conditional append of the hour, last_seen and slug overwrite, and the
needs_refresh transition when last_post_refresh is not the merge date. -/
def mergeExisting (slugf : String → String) (topic : TopicEntry)
    (date : String) (hour : Nat) (record : TopicRecord) : TopicRecord :=
  let hourStr := twoDigit hour
  let r1 := { record with entry := topic }
  let r2 :=
    if hourStr ∈ r1.appeared_hours then r1
    else { r1 with appeared_hours := r1.appeared_hours ++ [hourStr] }
  let r3 := { r2 with last_seen := iso_time date hour,
                      slug := slugf (pyStrip topic.title) }
  if r3.last_post_refresh ≠ some date then { r3 with needs_refresh := true }
  else r3

def upsert_topic (slugf : String → String)
    (archive : String → Option TopicRecord)
    (topic : TopicEntry) (date : String) (hour : Nat) :
    (String → Option TopicRecord) × Option TopicRecord :=
  let title := pyStrip topic.title
  if title = "" then (archive, none)
  else
    match archive title with
    | none =>
        let record := freshRecord slugf topic date hour
        (fun t => if t = title then some record else archive t, some record)
    | some record =>
        let r4 := mergeExisting slugf topic date hour record
        (fun t => if t = title then some r4 else archive t, some r4)

/-! HourlyBackfillScheduler slot enumeration
    (spider/monitor_remote_hot_topics.py, collect_pending_hours).
    MAX_LOOKBACK_DAYS = 1, so the Python loop runs offset 0 (today, hours
    0..now.hour) and then offset 1 (the previous day, hours 0..23), appending
    every slot whose hourly snapshot file does not exist.  Calendar days are
    modelled as day ordinals; fileExists is the hour_path(...).exists()
    oracle. -/

def MAX_LOOKBACK_DAYS : Nat := 1

def pendingForDay (fileExists : Nat → Nat → Bool) (day maxHour : Nat) :
    List (Nat × Nat) :=
  ((List.range (maxHour + 1)).filter (fun h => !(fileExists day h))).map
    (fun h => (day, h))

def collect_pending_hours (fileExists : Nat → Nat → Bool)
    (nowDay nowHour : Nat) : List (Nat × Nat) :=
  pendingForDay fileExists nowDay nowHour ++
    pendingForDay fileExists (nowDay - 1) 23

/-! Local-fallback escalation gate
    (spider/monitor_remote_hot_topics.py, should_trigger_local and
    _maybe_fetch_local).  Wall-clock instants are modelled at one-second
    granularity, the granularity of the datetime comparison in the code;
    absSeconds converts (day ordinal, hour, minute, second) to an absolute
    second count.  The slot target is the top of the slot hour. -/

def LOCAL_FALLBACK_THRESHOLD_MINUTES : Nat := 45

def absSeconds (day hour minute sec : Nat) : Nat :=
  ((day * 24 + hour) * 60 + minute) * 60 + sec

def should_trigger_local (slotDay slotHour : Nat)
    (nDay nHour nMin nSec : Nat) : Bool :=
  let target := absSeconds slotDay slotHour 0 0
  let now := absSeconds nDay nHour nMin nSec
  if now < target then false
  else if LOCAL_FALLBACK_THRESHOLD_MINUTES * 60 ≤ now - target then true
  else if slotDay < nDay then true
  else if slotHour < nHour then true
  else false

/-- _maybe_fetch_local: returns ((topics, local_used), localInvoked) where
localInvoked records whether fetch_local_topics_with_logging was called.
localResult stands for the value of fetch_local_topics_with_logging, which
wraps the local crawler and yields an empty list on any failure. -/
def maybe_fetch_local (localResult : List TopicEntry)
    (slotDay slotHour nDay nHour nMin nSec : Nat) :
    (List TopicEntry × Bool) × Bool :=
  if !(should_trigger_local slotDay slotHour nDay nHour nMin nSec) then
    (([], false), false)
  else
    ((localResult, !localResult.isEmpty), true)

/-! CrawlEngine (spider/crawler_core.py).  A page of the mobile search API is
    the decoded JSON the code reads: its type-9 cards and the truthiness of
    cardlistInfo.page.  fetch_page collapses to a page source oracle
    Nat → Option PageData: none is any of the cases in which crawl_topic
    receives data = None (retries exhausted, ok != 1, hard 403/418), after
    which the page loop breaks. -/

structure Mblog where
  id : String := ""
  mid : String := ""
  bid : String := ""
  text : String := ""
  raw_text : String := ""
  page_title : String := ""
  page_page_title : String := ""
  created_at : String := ""
  user_id : Option Int := none
  user_name : Option String := none
  verified : Option Bool := none
  region : Option String := none
  source : Option String := none
  attitudes_count : Option Int := none
  comments_count : Option Int := none
  reposts_count : Option Int := none
deriving DecidableEq, Repr

structure Card where
  card_type : Nat := 9
  mblog : Mblog
deriving DecidableEq, Repr

structure PageData where
  cards : List Card := []
  hasNext : Bool := false
deriving DecidableEq, Repr

structure CrawlParams where
  hashtag : String
  top_n : Nat := 30
  max_pages : Nat := 5
  min_score : ℚ := 0
  since : Option String := none
  skip_ids : List String := []

/-- str(mblog.get(id) or mblog.get(mid) or ""), with the empty string as the
missing value. -/
def midOf (m : Mblog) : String :=
  if m.id ≠ "" then m.id else m.mid

def ensure_hashtag_format (title : String) : String :=
  let s := pyStrip title
  let s1 := if (List.isPrefixOf ['#'] s.data) then s else "#" ++ s
  if (List.isSuffixOf ['#'] s1.data) then s1 else s1 ++ "#"

/-- Substring test on character lists (the Python in operator on str). -/
def containsSub (s pat : List Char) : Bool :=
  match s with
  | [] => pat.isEmpty
  | _ :: t => pat.isPrefixOf s || containsSub t pat

def ensure_contains_topic (m : Mblog) (hashtag : String) : Bool :=
  let needle := (pyLower hashtag).data
  [m.text, m.raw_text, m.page_title, m.page_page_title].any
    (fun t => containsSub (pyLower t).data needle)

def calculate_score (m : Mblog) : ℚ :=
  (m.attitudes_count.getD 0 : ℚ) * 0.6 +
    (m.comments_count.getD 0 : ℚ) * 0.3 +
    (m.reposts_count.getD 0 : ℚ) * 0.1

/-- normalize_mblog; parseIso is parse_created_at composed with isoformat
(an Option-valued timestamp renderer), cleanHtml is clean_html. -/
def normalize_mblog (parseIso : String → Option String)
    (cleanHtml : String → String) (m : Mblog) : Item :=
  let mid := midOf m
  { id := mid
    bid := m.bid
    url := if m.bid ≠ "" then some ("https://m.weibo.cn/status/" ++ m.bid)
           else none
    created_at := parseIso m.created_at
    user_id := m.user_id
    user_name := m.user_name
    verified := m.verified
    region := m.region
    source := m.source
    text := cleanHtml m.text
    text_raw := m.text
    reposts := m.reposts_count
    comments := m.comments_count
    likes := m.attitudes_count
    score := 0 }

/-- params.since and created and created < params.since.  ISO timestamps
carrying the same offset compare chronologically as strings. -/
def sinceRejects (since : Option String) (created : Option String) : Bool :=
  match since, created with
  | some s, some c => strLt c s
  | _, _ => false

/-- The per-card body of the crawl loop: the rejection chain (missing id,
skip list, duplicate this run, missing hashtag, too old, below min score),
then collection.  State is (seen ids, collected items). -/
def crawlStep (parseIso : String → Option String)
    (cleanHtml : String → String) (p : CrawlParams)
    (st : List String × List Item) (c : Card) : List String × List Item :=
  if c.card_type ≠ 9 then st
  else
    let mid := midOf c.mblog
    if mid = "" then st
    else if p.skip_ids.contains mid then st
    else if st.1.contains mid then st
    else if !(ensure_contains_topic c.mblog p.hashtag) then st
    else
      let created := parseIso c.mblog.created_at
      if sinceRejects p.since created then st
      else
        let item :=
          { normalize_mblog parseIso cleanHtml c.mblog with
              score := calculate_score c.mblog }
        if item.score < p.min_score then st
        else (mid :: st.1, st.2 ++ [item])

/-- The page loop of crawl_topic: pages pageIdx, pageIdx+1, ... while fuel
lasts, breaking when the source yields nothing, a page has no cards, or
cardlistInfo.page is falsy. -/
def crawlPages (src : Nat → Option PageData)
    (parseIso : String → Option String) (cleanHtml : String → String)
    (p : CrawlParams) :
    Nat → Nat → (List String × List Item) → List Item
  | 0, _, st => st.2
  | fuel + 1, pageIdx, st =>
    match src pageIdx with
    | none => st.2
    | some pd =>
        if pd.cards.isEmpty then st.2
        else
          let st1 := pd.cards.foldl (crawlStep parseIso cleanHtml p) st
          if pd.hasNext then crawlPages src parseIso cleanHtml p fuel
            (pageIdx + 1) st1
          else st1.2

/-- Sort order of the final collected.sort(key=(score, created_at or ""),
reverse=True): a strictly greater key comes first, ties keep encounter
order (the sort is stable). -/
def itemBefore (a b : Item) : Prop :=
  b.score < a.score ∨
    (a.score = b.score ∧
      strLt (b.created_at.getD "") (a.created_at.getD "") = true)

instance : DecidableRel itemBefore := fun a b => by
  unfold itemBefore; infer_instance

def crawl_topic (src : Nat → Option PageData)
    (parseIso : String → Option String) (cleanHtml : String → String)
    (nowIso : String) (p : CrawlParams) : CrawlResult :=
  let collected := crawlPages src parseIso cleanHtml p p.max_pages 1
    (p.skip_ids, [])
  let sortedItems := List.insertionSort itemBefore collected
  { topic := p.hashtag
    fetched_at := some nowIso
    total := collected.length
    top_n := p.top_n
    items := sortedItems.take p.top_n }

/-! PostRefreshPipeline (spider/update_posts.py). -/

def TOP_N : Nat := 30
def MAX_PAGES : Nat := 5
def MIN_SCORE : ℚ := 0

/-- A post scraped by the topic-detail fallback
(Weibo_zy.weibo_enhanced.topic_detail.WeiboPost).  The getattr(post, k, 0)
or 0 readings of _convert_detail_posts make every counter a plain integer
and every text field a plain string. -/
structure WeiboPost where
  detail_url : String := ""
  timestamp : String := ""
  author : String := ""
  content : String := ""
  source : String := ""
  forwards_count : Int := 0
  comments_count : Int := 0
  likes_count : Int := 0
  image_links : List String := []
  video_link : String := ""
deriving DecidableEq, Repr

/-- _generate_detail_id; hashAbs stands for abs(hash(url)). -/
def generate_detail_id (hashAbs : String → Nat) (detail_url : String)
    (index : Nat) : String :=
  if detail_url ≠ "" then "detail-" ++ toString (hashAbs detail_url)
  else "detail-" ++ toString index

/-- The item dict built for one enumerated post by _convert_detail_posts.
normTs models _normalize_timestamp (an Option because a blank timestamp
yields None).  The video payload is dropped along with the other media
fields of Item.  Note the score line of the source:
forwards * 0.6 + comments * 0.3 + likes * 0.1. -/
def detailItem (hashAbs : String → Nat) (normTs : String → Option String)
    (ip : Nat × WeiboPost) : Item :=
  let index := ip.1
  let post := ip.2
  { id := generate_detail_id hashAbs post.detail_url index
    bid := ""
    url := if post.detail_url ≠ "" then some post.detail_url else none
    created_at := normTs post.timestamp
    user_id := none
    user_name := if post.author ≠ "" then some post.author else none
    verified := none
    region := none
    source := some post.source
    text := post.content
    text_raw := post.content
    reposts := some post.forwards_count
    comments := some post.comments_count
    likes := some post.likes_count
    score := (post.forwards_count : ℚ) * 0.6 +
      (post.comments_count : ℚ) * 0.3 + (post.likes_count : ℚ) * 0.1 }

/-- _convert_detail_posts: enumerate posts[:max_items] and build items. -/
def convert_detail_posts (hashAbs : String → Nat)
    (normTs : String → Option String) (posts : List WeiboPost)
    (limit : Nat) : List Item :=
  let maxItems := if 0 < limit then limit else posts.length
  (posts.take maxItems).enum.map (detailItem hashAbs normTs)

/-- The environment of update_topic: the page source per search term, the
converted collaborator functions, the wall clock, the detail-fallback
scrape result (an empty list when get_top_20_hot_posts throws, as
_fetch_posts_via_topic_detail catches every exception), and slugify. -/
structure RefreshEnv where
  fetchSrc : String → Nat → Option PageData
  parseIso : String → Option String
  cleanHtml : String → String
  nowIso : String
  detailPosts : List WeiboPost
  hashAbs : String → Nat
  normTs : String → Option String
  slugf : String → String

/-- One CrawlEngine strategy run of update_topic: crawl_topic on
CrawlParams(hashtag=term, top_n=TOP_N, max_pages=MAX_PAGES,
min_score=MIN_SCORE, since=None, skip_ids=skip). -/
def strategyCrawl (env : RefreshEnv) (skip : List String) (term : String) :
    CrawlResult :=
  crawl_topic (env.fetchSrc term) env.parseIso env.cleanHtml env.nowIso
    { hashtag := term, top_n := TOP_N, max_pages := MAX_PAGES,
      min_score := MIN_SCORE, since := none, skip_ids := skip }

/-- The for mode, term in searches loop: skip blank terms, remember the
first candidate, and break on the first candidate with items. -/
def searchLoop (crawlF : String → CrawlResult)
    (acc : Option (CrawlResult × String)) :
    List (String × String) → Option (CrawlResult × String)
  | [] => acc
  | (mode, term) :: rest =>
    if term = "" then searchLoop crawlF acc rest
    else
      let candidate := crawlF term
      let acc1 := if acc.isSome then acc else some (candidate, mode)
      if !candidate.items.isEmpty then some (candidate, mode)
      else searchLoop crawlF acc1 rest

/-- update_topic.  Returns the updated record and whether the topic-detail
fallback collaborator was invoked. -/
def update_topic (env : RefreshEnv) (title : String) (record : TopicRecord)
    (date : String) : TopicRecord × Bool :=
  let slug := if record.slug = "" then env.slugf title else record.slug
  let skipIds := record.known_ids
  let searches := [("hashtag", ensure_hashtag_format title),
                   ("keyword", pyStrip title)]
  let step1 : CrawlResult :=
    match searchLoop (strategyCrawl env skipIds) none searches with
    | none =>
        { topic := ensure_hashtag_format title, fetched_at := none,
          total := 0, top_n := TOP_N, items := [] }
    | some (r, _) => { r with topic := ensure_hashtag_format title }
  let detailInvoked := step1.items.isEmpty
  let result :=
    if step1.items.isEmpty then
      let detailItems :=
        convert_detail_posts env.hashAbs env.normTs env.detailPosts TOP_N
      if !detailItems.isEmpty then
        { topic := ensure_hashtag_format title,
          fetched_at := some env.nowIso,
          total := detailItems.length, top_n := TOP_N,
          items := detailItems }
      else step1
    else step1
  let record1 :=
    { record with
        slug := slug
        last_post_refresh := some date
        post_output := some ("../data/posts/" ++ date ++ "/" ++ slug ++
          ".json")
        known_ids := result.items.filterMap
          (fun i => if i.id ≠ "" then some i.id else none)
        latest_posts := some result
        needs_refresh := result.items.isEmpty
        last_post_total := some result.total }
  (record1, detailInvoked)

/-- max_topics is not None and len(refreshed) >= max_topics. -/
def cappedAt (maxTopics : Option Nat) (refreshedCount : Nat) : Bool :=
  match maxTopics with
  | some m => decide (m ≤ refreshedCount)
  | none => false

/-- refresh_posts_for_date, with the per-title try/except modelled by an
update oracle upd that yields none exactly when update_topic raises.  The
archive dict is an insertion-ordered association list; refreshedCount is
len(refreshed) at the head of the iteration.  Returns the saved archive and
the (refreshed, skipped, failed) title lists. -/
def refreshLoop (upd : String → TopicRecord → Option TopicRecord)
    (maxTopics : Option Nat) :
    List (String × TopicRecord) → Nat →
      List (String × TopicRecord) × List String × List String × List String
  | [], _ => ([], [], [], [])
  | (title, record) :: rest, refreshedCount =>
    if cappedAt maxTopics refreshedCount then
      let out := refreshLoop upd maxTopics rest refreshedCount
      ((title, record) :: out.1, out.2.1, title :: out.2.2.1, out.2.2.2)
    else if !record.needs_refresh then
      let out := refreshLoop upd maxTopics rest refreshedCount
      ((title, record) :: out.1, out.2.1, title :: out.2.2.1, out.2.2.2)
    else
      match upd title record with
      | some r1 =>
          let out := refreshLoop upd maxTopics rest (refreshedCount + 1)
          ((title, r1) :: out.1, title :: out.2.1, out.2.2.1, out.2.2.2)
      | none =>
          let out := refreshLoop upd maxTopics rest refreshedCount
          ((title, record) :: out.1, out.2.1, out.2.2.1,
            title :: out.2.2.2)

def refresh_posts_for_date (upd : String → TopicRecord → Option TopicRecord)
    (maxTopics : Option Nat) (archive : List (String × TopicRecord)) :
    List (String × TopicRecord) × List String × List String × List String :=
  refreshLoop upd maxTopics archive 0

/-! DailyHeatAggregator (spider/daily_heat.py). -/

def MAX_DAYS : Nat := 120

structure DailyHeat where
  date : String
  total_heat : Int := 0
  topic_count : Int := 0
deriving DecidableEq, Repr

/-- summarize_archive: sum the hot of every non-ad record with a usable
non-negative hot value, and count those records.  The archive values are
taken as a list (dict iteration order does not affect a sum and a count).
_coerce_int on the typed hot field is the identity on present values. -/
def summarize_archive (date : String) (records : List TopicRecord) :
    DailyHeat :=
  let usable := records.filter (fun r =>
    !r.entry.ads &&
      match r.entry.hot with
      | some v => 0 ≤ v
      | none => false)
  { date := date
    total_heat := (usable.map (fun r => r.entry.hot.getD 0)).sum
    topic_count := usable.length }

/-- The stored-entry validation of update_daily_heat: str(item.get(date))
must have length 10 (this also excludes the empty string); the two counters
coerce to themselves (or to 0 from None, folded into the typed field). -/
def validDate (d : String) : Bool :=
  d.length = 10

/-- dict insertion merged[e.date] = e on a date-keyed map represented as a
duplicate-free list: drop any previous entry for the date, append e. -/
def insertByDate (m : List DailyHeat) (e : DailyHeat) : List DailyHeat :=
  m.filter (fun x => x.date ≠ e.date) ++ [e]

/-- The merged dict rebuilt from the stored summary data list. -/
def buildMerged (raw : List DailyHeat) : List DailyHeat :=
  (raw.filter (fun x => validDate x.date)).foldl insertByDate []

/-- merged[d], total because callers only look up present dates. -/
def lookupDate (m : List DailyHeat) (d : String) : DailyHeat :=
  (m.find? (fun x => x.date == d)).getD { date := d }

/-- sorted(merged.keys()): Python string sort is lexicographic by code
point. -/
def dateLe (a b : String) : Prop := strLe a b = true

instance : DecidableRel dateLe := fun a b => by
  unfold dateLe; infer_instance

def sortDates (l : List String) : List String :=
  List.insertionSort dateLe l

/-- merged after merged[summary_entry.date] = summary_entry. -/
def mergedOf (raw : List DailyHeat) (e : DailyHeat) : List DailyHeat :=
  insertByDate (buildMerged raw) e

/-- sorted_dates after the cap: sorted(merged.keys()), truncated to its
last MAX_DAYS entries when it is longer than MAX_DAYS. -/
def keptDates (raw : List DailyHeat) (e : DailyHeat) : List String :=
  if MAX_DAYS <
      (sortDates ((mergedOf raw e).map (fun x => x.date))).length then
    (sortDates ((mergedOf raw e).map (fun x => x.date))).drop
      ((sortDates ((mergedOf raw e).map (fun x => x.date))).length -
        MAX_DAYS)
  else sortDates ((mergedOf raw e).map (fun x => x.date))

/-- The pure heart of update_daily_heat: validate and merge the stored
entries, overwrite the entry for the new date, sort the dates, keep the
most recent MAX_DAYS, and emit the entries in date order. -/
def update_daily_heat (raw : List DailyHeat) (e : DailyHeat) :
    List DailyHeat :=
  (keptDates raw e).map (lookupDate (mergedOf raw e))

/-! Dedup invariants of the crawl loop. -/

/-- The loop invariant of crawl_topic: collected item ids are distinct,
none is blank or on the skip list, and every one is recorded in seen. -/
def crawlInv (p : CrawlParams) (st : List String × List Item) : Prop :=
  (st.2.map Item.id).Nodup ∧
  ∀ i ∈ st.2, i.id ≠ "" ∧ i.id ∉ p.skip_ids ∧ i.id ∈ st.1

/-- What the dedup discipline guarantees about a final item list. -/
def itemsOk (p : CrawlParams) (l : List Item) : Prop :=
  (l.map Item.id).Nodup ∧ ∀ i ∈ l, i.id ≠ "" ∧ i.id ∉ p.skip_ids

/-! Concrete test fixtures used by witnesses. -/

/-- A type-9 card with the given post id, zero engagement counters and a
body that mentions the search term of c8Params. -/
def c8Card (i : String) : Card :=
  { card_type := 9, mblog := { id := i, text := "axb" } }

/-- Two pages: ids A, B, C on page one, then a repeat of C and a card with
a missing id on page two. -/
def c8Src : Nat → Option PageData := fun page =>
  if page = 1 then
    some { cards := [c8Card "A", c8Card "B", c8Card "C"], hasNext := true }
  else if page = 2 then
    some { cards := [c8Card "C", c8Card ""], hasNext := false }
  else none

def c8Params : CrawlParams :=
  { hashtag := "x", skip_ids := ["A", "B"] }

/-- A refresh environment whose page source answers only the bare search
term X with a single page holding one type-9 card (id C, zero engagement
counters), so the hashtag strategy finds nothing and the keyword strategy
finds one post. -/
def c4Env : RefreshEnv :=
  { fetchSrc := fun term => fun page =>
      if term = "X" then
        (if page = 1 then
          some { cards := [{ card_type := 9,
                             mblog := { id := "C", text := "axb" } }],
                 hasNext := false }
         else none)
      else none
    parseIso := fun _ => none
    cleanHtml := fun s => s
    nowIso := "t0"
    detailPosts := []
    hashAbs := fun _ => 0
    normTs := fun _ => none
    slugf := fun _ => "s" }

def c4Record : TopicRecord :=
  { entry := { title := "X" } }

/-- A 10-character date key whose lexicographic order matches the numeric
order of its index (fixed-width three-digit counter). -/
def c9Date (i : Nat) : String :=
  "2025-" ++ (if i < 10 then "00" else if i < 100 then "0" else "") ++
    toString i ++ "--"

/-- 129 stored summary days. -/
def c9Raw : List DailyHeat :=
  (List.range 129).map
    (fun i => { date := c9Date i, total_heat := 1, topic_count := 1 })

/-- The 130th, newest day being merged. -/
def c9New : DailyHeat :=
  { date := c9Date 129, total_heat := 1, topic_count := 1 }

/-! Theorems. -/

theorem mergeExisting_fresh (slugf : String → String) (topic : TopicEntry)
    (date : String) (hour : Nat) :
    mergeExisting slugf topic date hour (freshRecord slugf topic date hour) =
      freshRecord slugf topic date hour := by
  simp [mergeExisting, freshRecord]

theorem mergeExisting_idem (slugf : String → String) (topic : TopicEntry)
    (date : String) (hour : Nat) (r : TopicRecord) :
    mergeExisting slugf topic date hour
        (mergeExisting slugf topic date hour r) =
      mergeExisting slugf topic date hour r := by
  by_cases h1 : twoDigit hour ∈ r.appeared_hours <;>
    by_cases h2 : r.last_post_refresh = some date <;>
      simp [mergeExisting, h1, h2]

theorem mergeExisting_count (slugf : String → String) (topic : TopicEntry)
    (date : String) (hour : Nat) (r : TopicRecord)
    (h : r.appeared_hours.count (twoDigit hour) ≤ 1) :
    (mergeExisting slugf topic date hour r).appeared_hours.count
        (twoDigit hour) = 1 := by
  by_cases h1 : twoDigit hour ∈ r.appeared_hours
  · have hpos : 0 < r.appeared_hours.count (twoDigit hour) :=
      List.count_pos_iff.mpr h1
    by_cases h2 : r.last_post_refresh = some date <;>
      simp [mergeExisting, h1, h2] <;> omega
  · have hz : r.appeared_hours.count (twoDigit hour) = 0 :=
      List.count_eq_zero.mpr h1
    by_cases h2 : r.last_post_refresh = some date <;>
      simp [mergeExisting, h1, h2, hz]

/-- Claim C1: on any archive whose stored record for the entry title (when
present) lists the merge hour at most once, merging the same entry for the
same (date, hour) twice equals merging it once, both in the returned
TopicRecord and in the archive, and the resulting appeared_hours holds the
hour string exactly once. -/
theorem claim_C1 (slugf : String → String)
    (archive : String → Option TopicRecord) (topic : TopicEntry)
    (date : String) (hour : Nat)
    (hTitle : pyStrip topic.title ≠ "")
    (hOnce : ∀ r, archive (pyStrip topic.title) = some r →
      r.appeared_hours.count (twoDigit hour) ≤ 1) :
    (upsert_topic slugf (upsert_topic slugf archive topic date hour).1
        topic date hour).2 =
      (upsert_topic slugf archive topic date hour).2 ∧
    (upsert_topic slugf (upsert_topic slugf archive topic date hour).1
        topic date hour).1 =
      (upsert_topic slugf archive topic date hour).1 ∧
    ∃ rec, (upsert_topic slugf archive topic date hour).2 = some rec ∧
      rec.appeared_hours.count (twoDigit hour) = 1 := by
  cases h : archive (pyStrip topic.title) with
  | none =>
      refine ⟨?_, ?_, ?_⟩
      · simp [upsert_topic, hTitle, h, mergeExisting_fresh]
      · funext t
        by_cases ht : t = pyStrip topic.title <;>
          simp [upsert_topic, hTitle, h, ht, mergeExisting_fresh]
      · refine ⟨freshRecord slugf topic date hour, ?_, ?_⟩
        · simp [upsert_topic, hTitle, h]
        · simp [freshRecord]
  | some r0 =>
      refine ⟨?_, ?_, ?_⟩
      · simp [upsert_topic, hTitle, h, mergeExisting_idem]
      · funext t
        by_cases ht : t = pyStrip topic.title <;>
          simp [upsert_topic, hTitle, h, ht, mergeExisting_idem]
      · refine ⟨mergeExisting slugf topic date hour r0, ?_, ?_⟩
        · simp [upsert_topic, hTitle, h]
        · exact mergeExisting_count slugf topic date hour r0 (hOnce r0 h)

theorem claim_C1_witness :
    ((pyStrip "X" ≠ "") ∧
      (∀ r, (fun _ : String => (none : Option TopicRecord)) (pyStrip "X") =
          some r → r.appeared_hours.count (twoDigit 15) ≤ 1)) ∧
    (∃ rec, (upsert_topic (fun _ => "slug-x") (fun _ => none)
        { title := "X" } "2025-10-25" 15).2 = some rec ∧
      rec.appeared_hours.count (twoDigit 15) = 1) :=
  ⟨⟨by decide, fun r hr => by simp at hr⟩,
   (claim_C1 (fun _ => "slug-x") (fun _ => none) { title := "X" }
     "2025-10-25" 15 (by decide) (fun r hr => by simp at hr)).2.2⟩

/-- Claim C7: upserting an entry whose trimmed title is absent from the
archive creates the record with appeared_hours = [hour], first_seen =
last_seen = the +08:00 ISO timestamp of (date, hour), needs_refresh = true
and empty known_ids. -/
theorem claim_C7 (slugf : String → String)
    (archive : String → Option TopicRecord) (topic : TopicEntry)
    (date : String) (hour : Nat)
    (hNew : archive (pyStrip topic.title) = none)
    (hTitle : pyStrip topic.title ≠ "") :
    (upsert_topic slugf archive topic date hour).2 =
      some { entry := topic
             appeared_hours := [twoDigit hour]
             first_seen := iso_time date hour
             last_seen := iso_time date hour
             last_post_refresh := none
             post_output := none
             known_ids := []
             needs_refresh := true
             slug := slugf (pyStrip topic.title) } := by
  simp [upsert_topic, hTitle, hNew, freshRecord]

theorem claim_C7_witness :
    ((fun _ : String => (none : Option TopicRecord)) (pyStrip "X") = none ∧
      pyStrip "X" ≠ "") ∧
    (upsert_topic (fun _ => "slug-of-x") (fun _ => none) { title := "X" }
        "2025-10-25" 9).2 =
      some { entry := { title := "X" }
             appeared_hours := ["09"]
             first_seen := "2025-10-25T09:00:00+08:00"
             last_seen := "2025-10-25T09:00:00+08:00"
             last_post_refresh := none
             post_output := none
             known_ids := []
             needs_refresh := true
             slug := "slug-of-x" } :=
  ⟨⟨rfl, by decide⟩, by
    rw [claim_C7 (fun _ => "slug-of-x") (fun _ => none) { title := "X" }
      "2025-10-25" 9 rfl (by decide)]
    decide⟩

/-- Claim C3: once wall-clock time is at or past the slot hour boundary,
the local source is invoked if and only if at least 45 minutes have
elapsed since that boundary, or the calendar day is past the slot day, or
the hour of day is past the slot hour; and when the gate refuses, the slot
yields an empty, unused result rather than a failure record. -/
theorem claim_C3 (localResult : List TopicEntry)
    (slotDay slotHour nDay nHour nMin nSec : Nat)
    (hPast : absSeconds slotDay slotHour 0 0 ≤ absSeconds nDay nHour nMin nSec) :
    ((maybe_fetch_local localResult slotDay slotHour nDay nHour nMin
        nSec).2 = true ↔
      (LOCAL_FALLBACK_THRESHOLD_MINUTES * 60 ≤
          absSeconds nDay nHour nMin nSec - absSeconds slotDay slotHour 0 0 ∨
        slotDay < nDay ∨ slotHour < nHour)) ∧
    ((maybe_fetch_local localResult slotDay slotHour nDay nHour nMin
        nSec).2 = false →
      (maybe_fetch_local localResult slotDay slotHour nDay nHour nMin
        nSec).1 = ([], false)) := by
  have hlt : ¬ (absSeconds nDay nHour nMin nSec <
      absSeconds slotDay slotHour 0 0) := by omega
  constructor
  · unfold maybe_fetch_local should_trigger_local
    simp only [hlt, if_false]
    by_cases h1 : LOCAL_FALLBACK_THRESHOLD_MINUTES * 60 ≤
        absSeconds nDay nHour nMin nSec - absSeconds slotDay slotHour 0 0 <;>
      by_cases h2 : slotDay < nDay <;>
        by_cases h3 : slotHour < nHour <;>
          simp [h1, h2, h3]
  · intro hf
    unfold maybe_fetch_local at hf ⊢
    by_cases hg : should_trigger_local slotDay slotHour nDay nHour nMin
        nSec <;> simp [hg] at hf ⊢

theorem claim_C3_witness :
    (absSeconds 7 10 0 0 ≤ absSeconds 7 10 30 0 ∧
      ((maybe_fetch_local [] 7 10 7 10 30 0).2 = true ↔
        (LOCAL_FALLBACK_THRESHOLD_MINUTES * 60 ≤
            absSeconds 7 10 30 0 - absSeconds 7 10 0 0 ∨
          7 < 7 ∨ 10 < 10))) ∧
    (absSeconds 7 10 0 0 ≤ absSeconds 7 10 46 0 ∧
      ((maybe_fetch_local [] 7 10 7 10 46 0).2 = true ↔
        (LOCAL_FALLBACK_THRESHOLD_MINUTES * 60 ≤
            absSeconds 7 10 46 0 - absSeconds 7 10 0 0 ∨
          7 < 7 ∨ 10 < 10))) ∧
    (maybe_fetch_local [] 7 10 7 10 30 0).2 = false ∧
    (maybe_fetch_local [] 7 10 7 10 46 0).2 = true :=
  ⟨⟨by decide, (claim_C3 [] 7 10 7 10 30 0 (by decide)).1⟩,
   ⟨by decide, (claim_C3 [] 7 10 7 10 46 0 (by decide)).1⟩,
   by decide, by decide⟩

theorem pendingForDay_fst (ex : Nat → Nat → Bool) (day maxHour : Nat)
    (x : Nat × Nat) (hx : x ∈ pendingForDay ex day maxHour) : x.1 = day := by
  simp only [pendingForDay, List.mem_map, List.mem_filter,
    List.mem_range] at hx
  obtain ⟨a, _, rfl⟩ := hx
  rfl

theorem pendingForDay_pairwise (ex : Nat → Nat → Bool) (day maxHour : Nat)
    (R : Nat × Nat → Nat × Nat → Prop)
    (hR : ∀ a b : Nat, a < b → R (day, a) (day, b)) :
    (pendingForDay ex day maxHour).Pairwise R := by
  unfold pendingForDay
  refine List.pairwise_map.mpr ?_
  exact ((List.pairwise_lt_range _).filter _).imp (fun h => hR _ _ h)

/-- Claim C2 counterexample: with no snapshot file present and now = (day 5,
hour 10), the pending list places a slot of day 5 (today) before a slot of
day 4 (the previous day), refuting the claimed oldest-first cross-day
ordering. -/
theorem claim_C2_counterexample :
    ¬ ((collect_pending_hours (fun _ _ => false) 5 10).Pairwise
        (fun a b : Nat × Nat => ¬ (a.1 = 5 ∧ b.1 = 4))) := by
  decide

/-- Claim C2 as amended: collect_pending_hours enumerates exactly the
missing slots of the window (today up to the current hour, the previous
day fully), hours ascending within each day, but with all of today's slots
before all of the previous day's slots. -/
theorem claim_C2_amended (ex : Nat → Nat → Bool) (d h : Nat)
    (hd : 1 ≤ d) :
    (∀ d0 h0 : Nat, ((d0, h0) ∈ collect_pending_hours ex d h ↔
      (((d0 = d ∧ h0 ≤ h) ∨ (d0 = d - 1 ∧ h0 ≤ 23)) ∧
        ex d0 h0 = false))) ∧
    (collect_pending_hours ex d h).Pairwise
      (fun a b : Nat × Nat =>
        (a.1 = b.1 → a.2 < b.2) ∧ (a.1 = d - 1 → b.1 = d - 1)) := by
  constructor
  · intro d0 h0
    simp only [collect_pending_hours, pendingForDay, List.mem_append,
      List.mem_map, List.mem_filter, List.mem_range, Bool.not_eq_true',
      Prod.mk.injEq]
    constructor
    · rintro (⟨a, ⟨ha, hex⟩, hda, rfl⟩ | ⟨a, ⟨ha, hex⟩, hda, rfl⟩)
      · subst hda
        exact ⟨Or.inl ⟨rfl, by omega⟩, hex⟩
      · subst hda
        exact ⟨Or.inr ⟨rfl, by omega⟩, hex⟩
    · rintro ⟨(⟨rfl, hh⟩ | ⟨rfl, hh⟩), hex⟩
      · exact Or.inl ⟨h0, ⟨by omega, hex⟩, rfl, rfl⟩
      · exact Or.inr ⟨h0, ⟨by omega, hex⟩, rfl, rfl⟩
  · unfold collect_pending_hours
    refine List.pairwise_append.mpr ⟨?_, ?_, ?_⟩
    · refine pendingForDay_pairwise ex d h _ ?_
      intro a b hab
      exact ⟨fun _ => hab, fun ha => ha⟩
    · refine pendingForDay_pairwise ex (d - 1) 23 _ ?_
      intro a b hab
      exact ⟨fun _ => hab, fun _ => rfl⟩
    · intro a ha b hb
      have ha1 : a.1 = d := pendingForDay_fst ex d h a ha
      have hb1 : b.1 = d - 1 := pendingForDay_fst ex (d - 1) 23 b hb
      refine ⟨fun heq => ?_, fun _ => hb1⟩
      exact absurd (ha1 ▸ hb1 ▸ heq) (by omega)

theorem claim_C2_witness :
    ((4, 3) ∈ collect_pending_hours (fun _ _ => false) 5 10 ↔
      (((4 = 5 ∧ 3 ≤ 10) ∨ (4 = 5 - 1 ∧ 3 ≤ 23)) ∧
        (fun _ _ : Nat => false) 4 3 = false)) ∧
    (collect_pending_hours (fun _ _ => false) 5 10).Pairwise
      (fun a b : Nat × Nat =>
        (a.1 = b.1 → a.2 < b.2) ∧ (a.1 = 5 - 1 → b.1 = 5 - 1)) :=
  ⟨(claim_C2_amended (fun _ _ => false) 5 10 (by decide)).1 4 3,
   (claim_C2_amended (fun _ _ => false) 5 10 (by decide)).2⟩

theorem refreshLoop_keys (upd : String → TopicRecord → Option TopicRecord)
    (maxT : Option Nat) (archive : List (String × TopicRecord)) (n : Nat) :
    (refreshLoop upd maxT archive n).1.map Prod.fst =
      archive.map Prod.fst := by
  induction archive generalizing n with
  | nil => rfl
  | cons head rest ih =>
      obtain ⟨title, record⟩ := head
      by_cases h1 : cappedAt maxT n
      · simp [refreshLoop, h1, ih]
      · by_cases h2 : record.needs_refresh
        · cases hu : upd title record <;> simp [refreshLoop, h1, h2, hu, ih]
        · simp [refreshLoop, h1, h2, ih]

/-- A title landing in the skipped list keeps the partition a permutation. -/
theorem perm_step_skipped (rf sk fl keys : List String) (t : String)
    (h : (rf ++ sk ++ fl).Perm keys) :
    (rf ++ (t :: sk) ++ fl).Perm (t :: keys) := by
  have h1 : (rf ++ (sk ++ fl)).Perm keys := by
    simpa [List.append_assoc] using h
  have e : rf ++ (t :: sk) ++ fl = rf ++ t :: (sk ++ fl) := by simp
  rw [e]
  exact List.perm_middle.trans (h1.cons t)

/-- A title landing in the failed list keeps the partition a permutation. -/
theorem perm_step_failed (rf sk fl keys : List String) (t : String)
    (h : (rf ++ sk ++ fl).Perm keys) :
    (rf ++ sk ++ (t :: fl)).Perm (t :: keys) := by
  have h0 : (rf ++ (sk ++ fl)).Perm keys := by
    simpa [List.append_assoc] using h
  have h1 : (sk ++ t :: fl).Perm (t :: (sk ++ fl)) := List.perm_middle
  have h2 : (rf ++ (sk ++ t :: fl)).Perm (rf ++ t :: (sk ++ fl)) :=
    h1.append_left rf
  have e : rf ++ sk ++ (t :: fl) = rf ++ (sk ++ t :: fl) := by simp
  rw [e]
  exact h2.trans (List.perm_middle.trans (h0.cons t))

theorem refreshLoop_perm (upd : String → TopicRecord → Option TopicRecord)
    (maxT : Option Nat) (archive : List (String × TopicRecord)) (n : Nat) :
    ((refreshLoop upd maxT archive n).2.1 ++
      (refreshLoop upd maxT archive n).2.2.1 ++
      (refreshLoop upd maxT archive n).2.2.2).Perm
        (archive.map Prod.fst) := by
  induction archive generalizing n with
  | nil => simp [refreshLoop]
  | cons head rest ih =>
      obtain ⟨title, record⟩ := head
      by_cases h1 : cappedAt maxT n
      · simp only [refreshLoop, h1, if_true, List.map_cons]
        exact perm_step_skipped _ _ _ _ title (ih n)
      · by_cases h2 : record.needs_refresh
        · cases hu : upd title record with
          | some r1 =>
              simp only [refreshLoop, h1, h2, hu, if_false, if_true,
                Bool.not_true, List.map_cons]
              exact (ih (n + 1)).cons title
          | none =>
              simp only [refreshLoop, h1, h2, hu, if_false, if_true,
                Bool.not_true, List.map_cons]
              exact perm_step_failed _ _ _ _ title (ih n)
        · simp only [refreshLoop, h1, h2, if_false, Bool.not_false,
            if_true, List.map_cons]
          exact perm_step_skipped _ _ _ _ title (ih n)

/-- Claim C10: refresh_posts_for_date never aborts on a per-topic failure:
whatever the update oracle does (including failing on some topics), the
refreshed, skipped and failed title lists together are a permutation of
the archive titles (so with unique keys every title lands in exactly one
list), and the saved archive still holds every title. -/
theorem claim_C10 (upd : String → TopicRecord → Option TopicRecord)
    (maxT : Option Nat) (archive : List (String × TopicRecord))
    (hN : (archive.map Prod.fst).Nodup) :
    ((refresh_posts_for_date upd maxT archive).2.1 ++
      (refresh_posts_for_date upd maxT archive).2.2.1 ++
      (refresh_posts_for_date upd maxT archive).2.2.2).Perm
        (archive.map Prod.fst) ∧
    ((refresh_posts_for_date upd maxT archive).2.1 ++
      (refresh_posts_for_date upd maxT archive).2.2.1 ++
      (refresh_posts_for_date upd maxT archive).2.2.2).Nodup ∧
    (refresh_posts_for_date upd maxT archive).1.map Prod.fst =
      archive.map Prod.fst := by
  refine ⟨refreshLoop_perm upd maxT archive 0, ?_,
    refreshLoop_keys upd maxT archive 0⟩
  exact (refreshLoop_perm upd maxT archive 0).nodup_iff.mpr hN

theorem claim_C10_witness :
    (([("a", ({ entry := { title := "a" }, needs_refresh := true } :
          TopicRecord)),
        ("b", ({ entry := { title := "b" }, needs_refresh := true } :
          TopicRecord))].map Prod.fst).Nodup) ∧
    ((refresh_posts_for_date (fun t r => if t = "a" then none else some r)
        none
        [("a", { entry := { title := "a" }, needs_refresh := true }),
         ("b", { entry := { title := "b" }, needs_refresh := true })]).2.1 ++
      (refresh_posts_for_date (fun t r => if t = "a" then none else some r)
        none
        [("a", { entry := { title := "a" }, needs_refresh := true }),
         ("b", { entry := { title := "b" }, needs_refresh := true })]).2.2.1 ++
      (refresh_posts_for_date (fun t r => if t = "a" then none else some r)
        none
        [("a", { entry := { title := "a" }, needs_refresh := true }),
         ("b", { entry := { title := "b" }, needs_refresh := true })]).2.2.2).Perm
      ([("a", ({ entry := { title := "a" }, needs_refresh := true } :
          TopicRecord)),
        ("b", ({ entry := { title := "b" }, needs_refresh := true } :
          TopicRecord))].map Prod.fst) ∧
    (refresh_posts_for_date (fun t r => if t = "a" then none else some r)
        none
        [("a", { entry := { title := "a" }, needs_refresh := true }),
         ("b", { entry := { title := "b" }, needs_refresh := true })]).2 =
      (["b"], [], ["a"]) :=
  ⟨by decide,
   (claim_C10 (fun t r => if t = "a" then none else some r) none
     [("a", { entry := { title := "a" }, needs_refresh := true }),
      ("b", { entry := { title := "b" }, needs_refresh := true })]
     (by decide)).1,
   by decide⟩

/-- Claim C5 counterexample: with every strategy returning an empty item
list (all page fetches fail, the topic-detail scrape is empty), update_topic
still overwrites last_post_refresh with the refresh date, instead of
leaving it at its previous value 2025-10-24. -/
theorem claim_C5_counterexample :
    (update_topic
        { fetchSrc := fun _ _ => none, parseIso := fun _ => none,
          cleanHtml := fun s => s, nowIso := "now", detailPosts := [],
          hashAbs := fun _ => 0, normTs := fun _ => none,
          slugf := fun _ => "x-slug" }
        "X"
        { entry := { title := "X" }, last_post_refresh := some "2025-10-24",
          needs_refresh := true }
        "2025-10-25").1.last_post_refresh = some "2025-10-25" ∧
    some "2025-10-25" ≠ some "2025-10-24" ∧
    (update_topic
        { fetchSrc := fun _ _ => none, parseIso := fun _ => none,
          cleanHtml := fun s => s, nowIso := "now", detailPosts := [],
          hashAbs := fun _ => 0, normTs := fun _ => none,
          slugf := fun _ => "x-slug" }
        "X"
        { entry := { title := "X" }, last_post_refresh := some "2025-10-24",
          needs_refresh := true }
        "2025-10-25").1.needs_refresh = true := by
  refine ⟨by decide, by decide, by decide⟩

/-- Claim C5 as amended: update_topic sets last_post_refresh to the refresh
date unconditionally, successful or not; needs_refresh equals the emptiness
of the persisted result, and known_ids is rebuilt from the persisted
items. -/
theorem claim_C5_amended (env : RefreshEnv) (title : String)
    (record : TopicRecord) (date : String) :
    (update_topic env title record date).1.last_post_refresh = some date ∧
    ∃ res, (update_topic env title record date).1.latest_posts = some res ∧
      (update_topic env title record date).1.needs_refresh =
        res.items.isEmpty ∧
      (update_topic env title record date).1.known_ids =
        res.items.filterMap
          (fun i => if i.id ≠ "" then some i.id else none) :=
  ⟨rfl, ⟨_, rfl, rfl, rfl⟩⟩

/-- Claim C6 counterexample: a topic-detail fallback post with 10 likes and
no comments or reposts is scored 1 by _convert_detail_posts (its weights
put 0.1 on likes), not the 6 the claimed weighting 0.6 likes + 0.3 comments
+ 0.1 reposts yields. -/
theorem claim_C6_counterexample :
    (convert_detail_posts (fun _ => 0) (fun _ => none)
        [{ likes_count := 10 }] 30).map Item.score = [1] ∧
    (0.6 : ℚ) * 10 + 0.3 * 0 + 0.1 * 0 = 6 ∧ (1 : ℚ) ≠ 6 := by
  refine ⟨?_, by norm_num, by norm_num⟩
  simp only [convert_detail_posts, detailItem, List.take, List.enum,
    List.enumFrom, List.map]
  norm_num

theorem detail_scores_aux (hashAbs : String → Nat)
    (normTs : String → Option String) (l : List WeiboPost) (n : Nat) :
    ((List.enumFrom n l).map (detailItem hashAbs normTs)).map Item.score =
      l.map (fun p => (p.forwards_count : ℚ) * 0.6 +
        (p.comments_count : ℚ) * 0.3 + (p.likes_count : ℚ) * 0.1) := by
  induction l generalizing n with
  | nil => rfl
  | cons p t ih => simp [List.enumFrom, detailItem, ih]

/-- Claim C6 as amended: the CrawlEngine search path scores
0.6 likes + 0.3 comments + 0.1 reposts, while the topic-detail fallback
path scores 0.6 reposts + 0.3 comments + 0.1 likes (the weights of likes
and reposts are swapped between the two paths). -/
theorem claim_C6_amended :
    (∀ m : Mblog, calculate_score m =
      0.6 * (m.attitudes_count.getD 0 : ℚ) +
        0.3 * (m.comments_count.getD 0 : ℚ) +
        0.1 * (m.reposts_count.getD 0 : ℚ)) ∧
    (∀ (hashAbs : String → Nat) (normTs : String → Option String)
        (posts : List WeiboPost) (limit : Nat),
      (convert_detail_posts hashAbs normTs posts limit).map Item.score =
        (posts.take (if 0 < limit then limit else posts.length)).map
          (fun p => 0.6 * (p.forwards_count : ℚ) +
            0.3 * (p.comments_count : ℚ) + 0.1 * (p.likes_count : ℚ))) := by
  constructor
  · intro m
    unfold calculate_score
    ring
  · intro hashAbs normTs posts limit
    unfold convert_detail_posts
    simp only [List.enum]
    rw [detail_scores_aux]
    refine List.map_congr_left ?_
    intro p _
    ring

/-- Claim C4: when the hashtag strategy yields no items and the keyword
strategy yields some, update_topic persists exactly the keyword strategy
result (with only its topic label rewritten to the hashtag form), its item
list untouched, and the topic-detail fallback is never invoked. -/
theorem claim_C4 (env : RefreshEnv) (title : String) (record : TopicRecord)
    (date : String)
    (hHash : (strategyCrawl env record.known_ids
        (ensure_hashtag_format title)).items = [])
    (hKw : (strategyCrawl env record.known_ids (pyStrip title)).items ≠ [])
    (hT : pyStrip title ≠ "") :
    (update_topic env title record date).2 = false ∧
    (update_topic env title record date).1.latest_posts =
      some { strategyCrawl env record.known_ids (pyStrip title) with
             topic := ensure_hashtag_format title } ∧
    ({ strategyCrawl env record.known_ids (pyStrip title) with
       topic := ensure_hashtag_format title } : CrawlResult).items =
      (strategyCrawl env record.known_ids (pyStrip title)).items := by
  have hKwE : (strategyCrawl env record.known_ids
      (pyStrip title)).items.isEmpty = false := by
    simpa [List.isEmpty_iff] using hKw
  by_cases hHT : ensure_hashtag_format title = "" <;>
    simp [update_topic, searchLoop, hHT, hT, hHash, hKwE]

theorem claim_C4_witness :
    ((strategyCrawl c4Env c4Record.known_ids
        (ensure_hashtag_format "X")).items = [] ∧
      (strategyCrawl c4Env c4Record.known_ids (pyStrip "X")).items ≠ [] ∧
      pyStrip "X" ≠ "") ∧
    ((update_topic c4Env "X" c4Record "2025-10-25").2 = false ∧
      (update_topic c4Env "X" c4Record "2025-10-25").1.latest_posts =
        some { strategyCrawl c4Env c4Record.known_ids (pyStrip "X") with
               topic := ensure_hashtag_format "X" } ∧
      ({ strategyCrawl c4Env c4Record.known_ids (pyStrip "X") with
         topic := ensure_hashtag_format "X" } : CrawlResult).items =
        (strategyCrawl c4Env c4Record.known_ids (pyStrip "X")).items) :=
  ⟨⟨by decide,
    by
      have hps : pyStrip "X" = "X" := by decide
      have hlow : pyLower "axb" = "axb" := by decide
      have hlow2 : pyLower "X" = "x" := by decide
      simp [c4Env, c4Record, strategyCrawl, crawl_topic, crawlPages,
        crawlStep, midOf, ensure_contains_topic, containsSub, hps, hlow,
        hlow2, sinceRejects, normalize_mblog, calculate_score, MAX_PAGES,
        MIN_SCORE, TOP_N],
    by decide⟩,
   claim_C4 c4Env "X" c4Record "2025-10-25"
     (by decide)
     (by
      have hps : pyStrip "X" = "X" := by decide
      have hlow : pyLower "axb" = "axb" := by decide
      have hlow2 : pyLower "X" = "x" := by decide
      simp [c4Env, c4Record, strategyCrawl, crawl_topic, crawlPages,
        crawlStep, midOf, ensure_contains_topic, containsSub, hps, hlow,
        hlow2, sinceRejects, normalize_mblog, calculate_score, MAX_PAGES,
        MIN_SCORE, TOP_N])
     (by decide)⟩

theorem crawlStep_inv (parseIso : String → Option String)
    (cleanHtml : String → String) (p : CrawlParams)
    (st : List String × List Item) (c : Card) (h : crawlInv p st) :
    crawlInv p (crawlStep parseIso cleanHtml p st c) := by
  obtain ⟨hnd, hall⟩ := h
  by_cases h1 : c.card_type ≠ 9
  · simpa [crawlStep, h1] using ⟨hnd, hall⟩
  by_cases h2 : midOf c.mblog = ""
  · simpa [crawlStep, h1, h2] using ⟨hnd, hall⟩
  by_cases h3 : midOf c.mblog ∈ p.skip_ids
  · simpa [crawlStep, h1, h2, h3] using ⟨hnd, hall⟩
  by_cases h4 : midOf c.mblog ∈ st.1
  · simpa [crawlStep, h1, h2, h3, h4] using ⟨hnd, hall⟩
  by_cases h5 : ensure_contains_topic c.mblog p.hashtag = false
  · simpa [crawlStep, h1, h2, h3, h4, h5] using ⟨hnd, hall⟩
  by_cases h6 : sinceRejects p.since (parseIso c.mblog.created_at) = true
  · simpa [crawlStep, h1, h2, h3, h4, h5, h6] using ⟨hnd, hall⟩
  by_cases h7 : calculate_score c.mblog < p.min_score
  · simpa [crawlStep, h1, h2, h3, h4, h5, h6, h7] using ⟨hnd, hall⟩
  have hstep : crawlStep parseIso cleanHtml p st c =
      (midOf c.mblog :: st.1, st.2 ++
        [{ normalize_mblog parseIso cleanHtml c.mblog with
           score := calculate_score c.mblog }]) := by
    simp [crawlStep, h1, h2, h3, h4, h5, h6, h7]
  rw [hstep]
  have hid : ({ normalize_mblog parseIso cleanHtml c.mblog with
      score := calculate_score c.mblog } : Item).id = midOf c.mblog := rfl
  have hmem : midOf c.mblog ∉ st.2.map Item.id := by
    intro hmem
    obtain ⟨i, hi, hidm⟩ := List.mem_map.mp hmem
    have hc := (hall i hi).2.2
    rw [hidm] at hc
    exact h4 hc
  constructor
  · simp only [List.map_append, List.map_cons, List.map_nil, hid]
    refine ((List.perm_append_singleton _ _).nodup_iff).mpr ?_
    exact List.nodup_cons.mpr ⟨hmem, hnd⟩
  · intro i hi
    rcases List.mem_append.mp hi with hold | hnew
    · obtain ⟨ha, hb, hc⟩ := hall i hold
      exact ⟨ha, hb, List.mem_cons_of_mem _ hc⟩
    · rw [List.mem_singleton.mp hnew]
      rw [hid]
      exact ⟨h2, h3, List.mem_cons_self _ _⟩

theorem crawlFold_inv (parseIso : String → Option String)
    (cleanHtml : String → String) (p : CrawlParams)
    (cards : List Card) (st : List String × List Item)
    (h : crawlInv p st) :
    crawlInv p (cards.foldl (crawlStep parseIso cleanHtml p) st) := by
  induction cards generalizing st with
  | nil => exact h
  | cons c rest ih =>
      exact ih _ (crawlStep_inv parseIso cleanHtml p st c h)

theorem crawlInv_itemsOk (p : CrawlParams) (st : List String × List Item)
    (h : crawlInv p st) : itemsOk p st.2 :=
  ⟨h.1, fun i hi => ⟨(h.2 i hi).1, (h.2 i hi).2.1⟩⟩

theorem crawlPages_ok (src : Nat → Option PageData)
    (parseIso : String → Option String) (cleanHtml : String → String)
    (p : CrawlParams) (fuel pageIdx : Nat)
    (st : List String × List Item) (h : crawlInv p st) :
    itemsOk p (crawlPages src parseIso cleanHtml p fuel pageIdx st) := by
  induction fuel generalizing pageIdx st with
  | zero => exact crawlInv_itemsOk p st h
  | succ n ih =>
      unfold crawlPages
      cases src pageIdx with
      | none => exact crawlInv_itemsOk p st h
      | some pd =>
          by_cases hc : pd.cards.isEmpty
          · simpa [hc] using crawlInv_itemsOk p st h
          · have hfold := crawlFold_inv parseIso cleanHtml p pd.cards st h
            by_cases hn : pd.hasNext
            · simpa [hc, hn] using ih (pageIdx + 1) _ hfold
            · simpa [hc, hn] using crawlInv_itemsOk p _ hfold

theorem crawl_topic_ok (src : Nat → Option PageData)
    (parseIso : String → Option String) (cleanHtml : String → String)
    (nowIso : String) (p : CrawlParams) :
    itemsOk p (crawl_topic src parseIso cleanHtml nowIso p).items := by
  have hinit : crawlInv p (p.skip_ids, []) := by
    exact ⟨List.nodup_nil, fun i hi => absurd hi (List.not_mem_nil i)⟩
  have hcoll := crawlPages_ok src parseIso cleanHtml p p.max_pages 1
    (p.skip_ids, []) hinit
  obtain ⟨hnd, hall⟩ := hcoll
  have hperm : (List.insertionSort itemBefore
      (crawlPages src parseIso cleanHtml p p.max_pages 1
        (p.skip_ids, []))).Perm
      (crawlPages src parseIso cleanHtml p p.max_pages 1
        (p.skip_ids, [])) := List.perm_insertionSort _ _
  constructor
  · have hnds : ((List.insertionSort itemBefore
        (crawlPages src parseIso cleanHtml p p.max_pages 1
          (p.skip_ids, []))).map Item.id).Nodup :=
      ((hperm.map Item.id).nodup_iff).mpr hnd
    have hsub : ((crawl_topic src parseIso cleanHtml nowIso p).items.map
        Item.id).Sublist ((List.insertionSort itemBefore
          (crawlPages src parseIso cleanHtml p p.max_pages 1
            (p.skip_ids, []))).map Item.id) := by
      exact (List.take_sublist _ _).map Item.id
    exact hnds.sublist hsub
  · intro i hi
    have hmem : i ∈ List.insertionSort itemBefore
        (crawlPages src parseIso cleanHtml p p.max_pages 1
          (p.skip_ids, [])) := List.take_subset _ _ hi
    exact hall i (hperm.mem_iff.mp hmem)

/-- Claim C8: CrawlEngine dedup is exact.  In general every returned item
has a non-blank id outside excludeIds and ids are pairwise distinct (no
candidate with a missing, excluded, or already-seen id survives); in the
concrete {A, B, C} scenario with excludeIds = {A, B} and a source whose
pages carry ids A, B, C and a repeat of C, the run returns exactly the
post with id C. -/
theorem claim_C8 :
    (∀ (src : Nat → Option PageData) (parseIso : String → Option String)
      (cleanHtml : String → String) (nowIso : String) (p : CrawlParams),
      itemsOk p (crawl_topic src parseIso cleanHtml nowIso p).items) ∧
    (crawl_topic c8Src (fun _ => none) (fun s => s) "t0"
        c8Params).items.map Item.id = ["C"] := by
  constructor
  · exact fun src parseIso cleanHtml nowIso p =>
      crawl_topic_ok src parseIso cleanHtml nowIso p
  · have hlow : pyLower "axb" = "axb" := by decide
    have hlow2 : pyLower "x" = "x" := by decide
    simp [c8Src, c8Params, c8Card, crawl_topic, crawlPages, crawlStep,
      midOf, ensure_contains_topic, containsSub, hlow, hlow2, sinceRejects,
      normalize_mblog, calculate_score, List.insertionSort,
      List.orderedInsert]

theorem claim_C8_witness :
    ((crawl_topic c8Src (fun _ => none) (fun s => s) "t0"
        c8Params).items.map Item.id).Nodup ∧
    (crawl_topic c8Src (fun _ => none) (fun s => s) "t0"
        c8Params).items.map Item.id = ["C"] :=
  ⟨(claim_C8.1 c8Src (fun _ => none) (fun s => s) "t0" c8Params).1,
   claim_C8.2⟩

/-! Order theory of the code-point comparison used for date keys. -/

theorem charsLt_irrefl (as : List Char) : charsLt as as = false := by
  induction as with
  | nil => rfl
  | cons a t ih => simp [charsLt, ih]

theorem charsLt_trans (as bs cs : List Char)
    (h1 : charsLt as bs = true) (h2 : charsLt bs cs = true) :
    charsLt as cs = true := by
  induction as generalizing bs cs with
  | nil =>
      cases bs with
      | nil => exact absurd h1 (by simp [charsLt])
      | cons b bt =>
          cases cs with
          | nil => exact absurd h2 (by simp [charsLt])
          | cons c ct => simp [charsLt]
  | cons a at1 ih =>
      cases bs with
      | nil => exact absurd h1 (by simp [charsLt])
      | cons b bt =>
          cases cs with
          | nil => exact absurd h2 (by simp [charsLt])
          | cons c ct =>
              simp only [charsLt] at h1 h2 ⊢
              by_cases hab : a < b
              · by_cases hbc : b < c
                · simp [lt_trans hab hbc]
                · by_cases hcb : c < b
                  · simp [hbc, hcb] at h2
                  · have hbc2 : b = c := le_antisymm (not_lt.mp hcb)
                      (not_lt.mp hbc)
                    subst hbc2
                    simp [hab]
              · by_cases hba : b < a
                · simp [hab, hba] at h1
                · have hab2 : a = b := le_antisymm (not_lt.mp hba)
                    (not_lt.mp hab)
                  simp [hab, hba] at h1
                  subst hab2
                  by_cases hac : a < c
                  · simp [hac]
                  · by_cases hca : c < a
                    · simp [hac, hca] at h2
                    · have hac2 : a = c := le_antisymm (not_lt.mp hca)
                        (not_lt.mp hac)
                      simp [hac, hca] at h2
                      subst hac2
                      simp [lt_irrefl]
                      exact ih _ _ h1 h2

theorem charsLt_trichotomy (as bs : List Char) :
    charsLt as bs = true ∨ charsLt bs as = true ∨ as = bs := by
  induction as generalizing bs with
  | nil =>
      cases bs with
      | nil => exact Or.inr (Or.inr rfl)
      | cons b bt => exact Or.inl (by simp [charsLt])
  | cons a t ih =>
      cases bs with
      | nil => exact Or.inr (Or.inl (by simp [charsLt]))
      | cons b bt =>
          rcases lt_trichotomy a b with hab | hab | hab
          · exact Or.inl (by simp [charsLt, hab])
          · subst hab
            rcases ih bt with h | h | h
            · exact Or.inl (by simp [charsLt, h])
            · exact Or.inr (Or.inl (by simp [charsLt, h]))
            · exact Or.inr (Or.inr (by rw [h]))
          · exact Or.inr (Or.inl (by simp [charsLt, hab]))

theorem charsLt_asymm (as bs : List Char) (h : charsLt as bs = true) :
    charsLt bs as = false := by
  by_contra hc
  have h2 : charsLt bs as = true := by
    cases hcc : charsLt bs as with
    | false => exact absurd hcc hc
    | true => rfl
  have := charsLt_trans as bs as h h2
  rw [charsLt_irrefl] at this
  exact Bool.false_ne_true this

theorem string_eq_of_data (a b : String) (h : a.data = b.data) : a = b := by
  cases a
  cases b
  exact congrArg String.mk h

theorem dateLe_refl (a : String) : dateLe a a := by
  unfold dateLe strLe strLt
  simp [charsLt_irrefl]

theorem dateLe_total_thm (a b : String) : dateLe a b ∨ dateLe b a := by
  unfold dateLe strLe strLt
  rcases charsLt_trichotomy a.data b.data with h | h | h
  · exact Or.inl (by simp [charsLt_asymm _ _ h])
  · exact Or.inr (by simp [charsLt_asymm _ _ h])
  · rw [h]
    simp [charsLt_irrefl]

theorem dateLe_trans_thm (a b c : String) (h1 : dateLe a b)
    (h2 : dateLe b c) : dateLe a c := by
  unfold dateLe strLe strLt at h1 h2 ⊢
  simp only [Bool.not_eq_true'] at h1 h2 ⊢
  by_contra hc
  have hca : charsLt c.data a.data = true := by
    cases hcc : charsLt c.data a.data with
    | false => exact absurd hcc hc
    | true => rfl
  rcases charsLt_trichotomy a.data b.data with h | h | h
  · have := charsLt_trans c.data a.data b.data hca h
    rw [h2] at this
    exact Bool.false_ne_true this
  · rw [h1] at h
    exact Bool.false_ne_true h
  · rw [h] at hca
    rw [h2] at hca
    exact Bool.false_ne_true hca

theorem dateLe_antisymm_thm (a b : String) (h1 : dateLe a b)
    (h2 : dateLe b a) : a = b := by
  unfold dateLe strLe strLt at h1 h2
  simp only [Bool.not_eq_true'] at h1 h2
  rcases charsLt_trichotomy a.data b.data with h | h | h
  · rw [h2] at h
    exact absurd h Bool.false_ne_true
  · rw [h1] at h
    exact absurd h Bool.false_ne_true
  · exact string_eq_of_data a b h

theorem strLt_of_dateLe_ne (a b : String) (h1 : dateLe a b) (h2 : a ≠ b) :
    strLt a b = true := by
  unfold dateLe strLe at h1
  simp only [Bool.not_eq_true'] at h1
  unfold strLt at h1 ⊢
  rcases charsLt_trichotomy a.data b.data with h | h | h
  · exact h
  · rw [h1] at h
    exact absurd h Bool.false_ne_true
  · exact absurd (string_eq_of_data a b h) h2

instance : IsTotal String dateLe := ⟨dateLe_total_thm⟩

instance : IsTrans String dateLe := ⟨dateLe_trans_thm⟩

/-! Structure of the merged date map. -/

theorem insert_dates_nodup (m : List DailyHeat) (e : DailyHeat)
    (h : (m.map (fun x => x.date)).Nodup) :
    ((insertByDate m e).map (fun x => x.date)).Nodup := by
  unfold insertByDate
  rw [List.map_append]
  refine ((List.perm_append_singleton _ _).nodup_iff).mpr ?_
  refine List.nodup_cons.mpr ⟨?_, ?_⟩
  · intro hmem
    obtain ⟨x, hx, hxe⟩ := List.mem_map.mp hmem
    have hne := (List.mem_filter.mp hx).2
    simp only [decide_eq_true_eq] at hne
    exact hne hxe
  · exact h.sublist ((List.filter_sublist _).map _)

theorem mem_foldl_insert (raw acc : List DailyHeat) (x : DailyHeat)
    (h : x ∈ raw.foldl insertByDate acc) : x ∈ acc ∨ x ∈ raw := by
  induction raw generalizing acc with
  | nil => exact Or.inl h
  | cons y t ih =>
      rcases ih (insertByDate acc y) h with h1 | h1
      · unfold insertByDate at h1
        rcases List.mem_append.mp h1 with h2 | h2
        · exact Or.inl (List.mem_of_mem_filter h2)
        · rw [List.mem_singleton.mp h2]
          exact Or.inr (List.mem_cons_self _ _)
      · exact Or.inr (List.mem_cons_of_mem _ h1)

theorem foldl_insert_nodup (raw acc : List DailyHeat)
    (h : (acc.map (fun x => x.date)).Nodup) :
    ((raw.foldl insertByDate acc).map (fun x => x.date)).Nodup := by
  induction raw generalizing acc with
  | nil => exact h
  | cons y t ih => exact ih _ (insert_dates_nodup acc y h)

theorem buildMerged_nodup (raw : List DailyHeat) :
    ((buildMerged raw).map (fun x => x.date)).Nodup :=
  foldl_insert_nodup _ [] List.nodup_nil

theorem buildMerged_mem (raw : List DailyHeat) (x : DailyHeat)
    (hx : x ∈ buildMerged raw) :
    x ∈ raw ∧ validDate x.date = true := by
  rcases mem_foldl_insert _ [] x hx with h | h
  · exact absurd h (List.not_mem_nil x)
  · have h2 := List.mem_filter.mp h
    exact ⟨h2.1, h2.2⟩

theorem mem_insertByDate_self (m : List DailyHeat) (e : DailyHeat) :
    e ∈ insertByDate m e :=
  List.mem_append_right _ (List.mem_singleton_self e)

theorem mem_insertByDate_cases (m : List DailyHeat) (e x : DailyHeat)
    (hx : x ∈ insertByDate m e) : x ∈ m ∨ x = e := by
  rcases List.mem_append.mp hx with h | h
  · exact Or.inl (List.mem_of_mem_filter h)
  · exact Or.inr (List.mem_singleton.mp h)

theorem lookupDate_date (m : List DailyHeat) (d : String) :
    (lookupDate m d).date = d := by
  unfold lookupDate
  cases hf : m.find? (fun x => x.date == d) with
  | none => rfl
  | some x =>
      have hp := List.find?_some hf
      simp only [beq_iff_eq] at hp
      simp [hp]

theorem lookupDate_mem (m : List DailyHeat) (d : String)
    (hd : d ∈ m.map (fun x => x.date)) : lookupDate m d ∈ m := by
  unfold lookupDate
  cases hf : m.find? (fun x => x.date == d) with
  | none =>
      obtain ⟨x, hx, hxd⟩ := List.mem_map.mp hd
      have := List.find?_eq_none.mp hf x hx
      simp [hxd] at this
  | some x => simpa using List.mem_of_find?_eq_some hf

theorem update_dates (raw : List DailyHeat) (e : DailyHeat) :
    (update_daily_heat raw e).map (fun x => x.date) = keptDates raw e := by
  unfold update_daily_heat
  rw [List.map_map]
  have : ((fun x : DailyHeat => x.date) ∘ lookupDate (mergedOf raw e)) =
      fun d => d := by
    funext d
    exact lookupDate_date _ d
  rw [this]
  exact List.map_id _

theorem sortDates_perm (l : List String) : (sortDates l).Perm l :=
  List.perm_insertionSort _ _

theorem sortDates_sorted (l : List String) :
    (sortDates l).Pairwise dateLe :=
  List.sorted_insertionSort _ _

theorem keptDates_sublist (raw : List DailyHeat) (e : DailyHeat) :
    (keptDates raw e).Sublist
      (sortDates ((mergedOf raw e).map (fun x => x.date))) := by
  unfold keptDates
  split
  · exact List.drop_sublist _ _
  · exact List.Sublist.refl _

theorem keptDates_sorted (raw : List DailyHeat) (e : DailyHeat) :
    (keptDates raw e).Pairwise dateLe :=
  List.Pairwise.sublist (keptDates_sublist raw e) (sortDates_sorted _)

theorem keptDates_nodup (raw : List DailyHeat) (e : DailyHeat) :
    (keptDates raw e).Nodup :=
  List.Nodup.sublist (keptDates_sublist raw e)
    ((sortDates_perm _).nodup_iff.mpr
      (insert_dates_nodup _ e (buildMerged_nodup raw)))

theorem merged_dates_le (raw : List DailyHeat) (e : DailyHeat)
    (hmax : ∀ x ∈ raw, validDate x.date = true → dateLe x.date e.date) :
    ∀ d ∈ (mergedOf raw e).map (fun x => x.date), dateLe d e.date := by
  intro d hd
  obtain ⟨x, hx, rfl⟩ := List.mem_map.mp hd
  rcases mem_insertByDate_cases _ _ x hx with h | h
  · obtain ⟨hxr, hxv⟩ := buildMerged_mem raw x h
    exact hmax x hxr hxv
  · rw [h]
    exact dateLe_refl _

theorem e_mem_keptDates (raw : List DailyHeat) (e : DailyHeat)
    (hmax : ∀ x ∈ raw, validDate x.date = true → dateLe x.date e.date) :
    e.date ∈ keptDates raw e := by
  have hmdnod : ((mergedOf raw e).map (fun x => x.date)).Nodup :=
    insert_dates_nodup _ e (buildMerged_nodup raw)
  have hmem : e.date ∈
      sortDates ((mergedOf raw e).map (fun x => x.date)) :=
    (sortDates_perm _).mem_iff.mpr
      (List.mem_map.mpr ⟨e, mem_insertByDate_self _ e, rfl⟩)
  have hallle : ∀ d ∈ sortDates ((mergedOf raw e).map (fun x => x.date)),
      dateLe d e.date := fun d hd =>
    merged_dates_le raw e hmax d ((sortDates_perm _).mem_iff.mp hd)
  unfold keptDates
  split
  case isTrue hlen =>
    by_contra hnot
    generalize hs : sortDates ((mergedOf raw e).map (fun x => x.date)) = s
      at hmem hallle hlen hnot
    have hsorted : s.Pairwise dateLe := hs ▸ sortDates_sorted _
    have hsnod : s.Nodup := hs ▸ (sortDates_perm _).nodup_iff.mpr hmdnod
    have hsplit : s.take (s.length - MAX_DAYS) ++
        s.drop (s.length - MAX_DAYS) = s := List.take_append_drop _ s
    have htake : e.date ∈ s.take (s.length - MAX_DAYS) := by
      rcases List.mem_append.mp (hsplit ▸ hmem) with h | h
      · exact h
      · exact absurd h hnot
    have hpw : (s.take (s.length - MAX_DAYS) ++
        s.drop (s.length - MAX_DAYS)).Pairwise dateLe := by
      rw [hsplit]
      exact hsorted
    have hcross := (List.pairwise_append.mp hpw).2.2
    have hdropeq : ∀ y ∈ s.drop (s.length - MAX_DAYS), y = e.date := by
      intro y hy
      refine dateLe_antisymm_thm y e.date ?_ (hcross e.date htake y hy)
      refine hallle y ?_
      rw [← hsplit]
      exact List.mem_append_right _ hy
    have hlen2 : (s.drop (s.length - MAX_DAYS)).length = MAX_DAYS := by
      rw [List.length_drop]
      omega
    have hdnod : (s.drop (s.length - MAX_DAYS)).Nodup :=
      List.Nodup.sublist (List.drop_sublist _ s) hsnod
    cases hdq : s.drop (s.length - MAX_DAYS) with
    | nil =>
        rw [hdq] at hlen2
        simp [MAX_DAYS] at hlen2
    | cons y1 rest =>
        cases hrq : rest with
        | nil =>
            rw [hdq, hrq] at hlen2
            simp [MAX_DAYS] at hlen2
        | cons y2 rest2 =>
            have h1 : y1 = e.date :=
              hdropeq y1 (by rw [hdq]; exact List.mem_cons_self _ _)
            have h2 : y2 = e.date := by
              refine hdropeq y2 ?_
              rw [hdq, hrq]
              exact List.mem_cons_of_mem _ (List.mem_cons_self _ _)
            rw [hdq, hrq] at hdnod
            have := (List.nodup_cons.mp hdnod).1
            exact this (by rw [h1, h2]; exact List.mem_cons_self _ _)
  case isFalse hlen => exact hmem

theorem update_count_one (raw : List DailyHeat) (e : DailyHeat)
    (hmax : ∀ x ∈ raw, validDate x.date = true → dateLe x.date e.date) :
    ((update_daily_heat raw e).map (fun x => x.date)).count e.date = 1 := by
  rw [update_dates]
  have hm := e_mem_keptDates raw e hmax
  have hnod := keptDates_nodup raw e
  have h1 : (keptDates raw e).count e.date ≤ 1 :=
    List.nodup_iff_count_le_one.mp hnod e.date
  have h2 : 0 < (keptDates raw e).count e.date := List.count_pos_iff.mpr hm
  omega

theorem update_all_le (raw : List DailyHeat) (e : DailyHeat)
    (hmax : ∀ x ∈ raw, validDate x.date = true → dateLe x.date e.date) :
    ∀ x ∈ update_daily_heat raw e, validDate x.date = true →
      dateLe x.date e.date := by
  intro x hx _
  unfold update_daily_heat at hx
  obtain ⟨d, hd, rfl⟩ := List.mem_map.mp hx
  rw [lookupDate_date]
  refine merged_dates_le raw e hmax d ?_
  exact (sortDates_perm _).mem_iff.mp
    ((keptDates_sublist raw e).subset hd)

theorem pairwise_strLt_of_le_nodup (l : List String)
    (h1 : l.Pairwise dateLe) (h2 : l.Nodup) :
    l.Pairwise (fun a b => strLt a b = true) := by
  induction l with
  | nil => exact List.Pairwise.nil
  | cons a t ih =>
      rw [List.pairwise_cons] at h1 ⊢
      rw [List.nodup_cons] at h2
      refine ⟨fun b hb => strLt_of_dateLe_ne _ _ (h1.1 b hb) ?_,
        ih h1.2 h2.2⟩
      intro heq
      exact h2.1 (heq ▸ hb)

set_option maxRecDepth 8192 in
set_option maxHeartbeats 1600000 in
/-- Claim C9: the heat-summary merge keeps at most one entry per date, in
strictly ascending date order, capped at the 120 most recent days.
Merging the newest date (every valid stored date at most the merged date,
the normal aggregation pattern) leaves exactly one entry for that date,
and running the merge twice still leaves exactly one; merging 130 distinct
days retains exactly the newest 120, dropping the oldest 10. -/
theorem claim_C9 (raw : List DailyHeat) (e : DailyHeat)
    (hmax : ∀ x ∈ raw, validDate x.date = true → dateLe x.date e.date) :
    ((update_daily_heat raw e).map (fun x => x.date)).Pairwise
        (fun a b => strLt a b = true) ∧
    (update_daily_heat raw e).length ≤ MAX_DAYS ∧
    ((update_daily_heat raw e).map (fun x => x.date)).count e.date = 1 ∧
    ((update_daily_heat (update_daily_heat raw e) e).map
        (fun x => x.date)).count e.date = 1 ∧
    (update_daily_heat c9Raw c9New).map (fun x => x.date) =
      ((List.range 130).map c9Date).drop 10 := by
  refine ⟨?_, ?_, update_count_one raw e hmax,
    update_count_one _ e (update_all_le raw e hmax), ?_⟩
  · rw [update_dates]
    exact pairwise_strLt_of_le_nodup _ (keptDates_sorted raw e)
      (keptDates_nodup raw e)
  · unfold update_daily_heat
    rw [List.length_map]
    unfold keptDates
    split
    case isTrue h =>
      rw [List.length_drop]
      omega
    case isFalse h => omega
  · decide

theorem claim_C9_witness :
    ([({ date := "2024-01-01", total_heat := 5, topic_count := 2 } :
        DailyHeat)].all (fun x => !(validDate x.date) ||
          strLe x.date "2024-01-02")) = true ∧
    ((update_daily_heat
        [{ date := "2024-01-01", total_heat := 5, topic_count := 2 }]
        { date := "2024-01-02", total_heat := 7, topic_count := 3 }).map
          (fun x => x.date)).count "2024-01-02" = 1 :=
  ⟨by decide,
   (claim_C9 [{ date := "2024-01-01", total_heat := 5, topic_count := 2 }]
     { date := "2024-01-02", total_heat := 7, topic_count := 3 }
     (by decide)).2.2.1⟩

end Weibo
